import Mathlib

/-
Verification of the AppFlowy operational-transformation core against its
specification.  The Rust sources embedded here are:
  - shared-lib/lib-ot/src/core/operation/operation.rs
  - shared-lib/flowy-document-infra/src/core/extensions/insert/auto_exit_block.rs
  - frontend/rust-lib/flowy-document/src/sql_tables/doc/rev_table.rs
Helper types that live in other files of the repository (FlowyStr, Interval,
OpBuilder, Attributes, DeltaIter, DeltaBuilder, the md5 helper) are modelled
from the specification; each such definition says so in its doc comment.
Strings are modelled as lists of UTF-16 code units (the unit every length and
offset of the OT algebra is measured in), machine integers as Nat or Int.
-/

set_option autoImplicit false

namespace AppFlowy

/-- Modelled from the spec: the enumerated attribute keys (header, bold,
italic, underline, strike, code, link, background, color, align, list,
bullet, ordered, checkbox, quote, code-block, indent).  The Rust enum
`AttributeKey` is not under src/. -/
inductive AttributeKey where
  | Header
  | Bold
  | Italic
  | Underline
  | Strike
  | Code
  | Link
  | Background
  | Color
  | Align
  | List
  | Bullet
  | Ordered
  | Checkbox
  | Quote
  | CodeBlock
  | Indent
deriving DecidableEq, Repr

/-- Modelled from the spec: an attribute value is a JSON primitive
(string, integer, boolean) or null; null is the removal tombstone. -/
inductive AttributeValue where
  | str (s : String)
  | int (n : Int)
  | bool (b : Bool)
  | null
deriving DecidableEq, Repr

/-- Modelled from the spec: the attribute map, a finite mapping from
attribute key to attribute value (a HashMap in the Rust code, which is not
under src/).  Represented as an association list without duplicate keys. -/
abbrev Attributes := List (AttributeKey × AttributeValue)

/-- The keys of an attribute map. -/
def attrKeys (a : Attributes) : List AttributeKey := a.map Prod.fst

/-- Modelled from the spec: equality of attribute maps ignores insertion
order (the Rust map is a HashMap, compared entry-wise by derived
PartialEq): two maps are equal when every key has the same associated
value in both. -/
def attrEquiv (a b : Attributes) : Bool :=
  (attrKeys a ++ attrKeys b).all (fun k => List.lookup k a == List.lookup k b)

/-- Modelled from the spec: FlowyStr, a string whose length is measured in
UTF-16 code units.  Represented directly as the list of its UTF-16 code
units; the newline character is code unit 10. -/
abbrev FlowyStr := List Nat

/-- Modelled from the spec: Interval, a half-open code-unit range
`[start, end)`.  The field `end` of the Rust struct is named `stop` here
because `end` is a Lean keyword. -/
structure Interval where
  start : Nat
  stop : Nat
deriving DecidableEq, Repr

/-- Interval size, `end - start` (usize subtraction; Nat subtraction
truncates at zero exactly when the Rust value would underflow only for
degenerate intervals, which the spec never produces). -/
def Interval.size (i : Interval) : Nat := i.stop - i.start

/-- Modelled from the spec: `FlowyStr::sub_str(interval)` returns the
code-unit slice `[start, end)` with both endpoints clamped to the
code-unit length of the string. -/
def FlowyStr.sub_str (s : FlowyStr) (i : Interval) : FlowyStr :=
  (s.take i.stop).drop i.start

/-- Embeds `struct Retain` from operation.rs. -/
structure Retain where
  n : Nat
  attributes : Attributes
deriving DecidableEq, Repr

/-- Embeds `struct Insert` from operation.rs. -/
structure Insert where
  s : FlowyStr
  attributes : Attributes
deriving DecidableEq, Repr

/-- Embeds `enum Operation` from operation.rs. -/
inductive Operation where
  | Delete (n : Nat)
  | Retain (r : Retain)
  | Insert (i : Insert)
deriving DecidableEq, Repr

/-- Embeds `Insert::count_of_code_units` (the UTF-16 code-unit count of the
text). -/
def Insert.count_of_code_units (i : Insert) : Nat := i.s.length

/-- Embeds `Operation::get_data`. -/
def Operation.get_data : Operation → FlowyStr
  | .Delete _ => []
  | .Retain _ => []
  | .Insert i => i.s

/-- Embeds `Operation::get_attributes`. -/
def Operation.get_attributes : Operation → Attributes
  | .Delete _ => []
  | .Retain r => r.attributes
  | .Insert i => i.attributes

/-- Embeds `Operation::set_attributes`: on Delete the attempt is only
logged (AttributeMisuse) and the operation is left unchanged; on Retain
and Insert the attribute map is replaced. -/
def Operation.set_attributes : Operation → Attributes → Operation
  | .Delete n, _ => .Delete n
  | .Retain r, attributes => .Retain { r with attributes := attributes }
  | .Insert i, attributes => .Insert { i with attributes := attributes }

/-- Embeds `Operation::len`. -/
def Operation.len : Operation → Nat
  | .Delete n => n
  | .Retain r => r.n
  | .Insert i => i.count_of_code_units

/-- Embeds `Operation::is_empty`. -/
def Operation.is_empty (op : Operation) : Bool := op.len == 0

/-- Embeds `Operation::is_delete`. -/
def Operation.is_delete : Operation → Bool
  | .Delete _ => true
  | _ => false

/-- Embeds `Operation::is_insert`. -/
def Operation.is_insert : Operation → Bool
  | .Insert _ => true
  | _ => false

/-- Embeds `Operation::is_retain`. -/
def Operation.is_retain : Operation → Bool
  | .Retain _ => true
  | _ => false

/-- Two operations are of the same variant. -/
def Operation.sameVariant : Operation → Operation → Bool
  | .Delete _, .Delete _ => true
  | .Retain _, .Retain _ => true
  | .Insert _, .Insert _ => true
  | _, _ => false

/-- Modelled from the spec: `OpBuilder::delete(n).build()` (lib-ot, not
under src/) builds a Delete operation. -/
def OpBuilder.delete (n : Nat) : Operation := .Delete n

/-- Modelled from the spec: `OpBuilder::retain(n).attributes(a).build()`
builds a Retain operation with the given attributes. -/
def OpBuilder.retain (n : Nat) (attributes : Attributes) : Operation :=
  .Retain ⟨n, attributes⟩

/-- Modelled from the spec: `OpBuilder::insert(s).attributes(a).build()`
builds an Insert operation with the given attributes; `OpBuilder::insert(s)
.build()` leaves the attributes empty. -/
def OpBuilder.insert (s : FlowyStr) (attributes : Attributes) : Operation :=
  .Insert ⟨s, attributes⟩

/-- Embeds `Operation::split` from operation.rs.  The Delete and Retain
arms call `OpBuilder::delete`; the Insert arm slices the text at the
code-unit offset `index` (range indexing of FlowyStr is modelled from the
spec as code-unit slicing) and keeps the attributes on both halves. -/
def Operation.split (op : Operation) (index : Nat) :
    Option Operation × Option Operation :=
  match op with
  | .Delete n =>
      (some (OpBuilder.delete index), some (OpBuilder.delete (n - index)))
  | .Retain r =>
      (some (OpBuilder.delete index), some (OpBuilder.delete (r.n - index)))
  | .Insert i =>
      (some (OpBuilder.insert (FlowyStr.sub_str i.s ⟨0, index⟩) i.attributes),
       some (OpBuilder.insert
               (FlowyStr.sub_str i.s ⟨index, i.count_of_code_units⟩)
               i.attributes))

/-- Embeds `Operation::shrink` from operation.rs: Delete and Retain are
clipped to `min(len, interval.size())`; Insert takes the `sub_str` slice
(or the empty insert when `interval.start` exceeds the code-unit count);
the result is None exactly when the clipped operation is empty. -/
def Operation.shrink (op : Operation) (interval : Interval) :
    Option Operation :=
  let op2 : Operation :=
    match op with
    | .Delete n => OpBuilder.delete (min n interval.size)
    | .Retain r => OpBuilder.retain (min r.n interval.size) r.attributes
    | .Insert i =>
        if i.count_of_code_units < interval.start then
          OpBuilder.insert [] []
        else
          OpBuilder.insert (FlowyStr.sub_str i.s interval) i.attributes
  if op2.is_empty then none else some op2

/-- The code-unit length `shrink` leaves after clipping, case by case. -/
def clippedLen (op : Operation) (interval : Interval) : Nat :=
  match op with
  | .Delete n => min n interval.size
  | .Retain r => min r.n interval.size
  | .Insert i => (FlowyStr.sub_str i.s interval).length

/-- Embeds `Retain::merge_or_new` from operation.rs, state-passing style:
the returned pair is (the Retain after the call, the returned Option). -/
def Retain.merge_or_new (r : Retain) (n : Nat) (attributes : Attributes) :
    Retain × Option Operation :=
  if attrEquiv r.attributes attributes then
    ({ r with n := r.n + n }, none)
  else
    (r, some (OpBuilder.retain n attributes))

/-- Embeds `Insert::merge_or_new_op` from operation.rs, state-passing
style: the returned pair is (the Insert after the call, the returned
Option). -/
def Insert.merge_or_new_op (i : Insert) (s : FlowyStr)
    (attributes : Attributes) : Insert × Option Operation :=
  if attrEquiv i.attributes attributes then
    ({ i with s := i.s ++ s }, none)
  else
    (i, some (OpBuilder.insert s attributes))

/-- Embeds the serde field layout of `Retain` (operation.rs lines 167-173):
the field `n` is serialized under the key "retain", and `attributes`
carries `skip_serializing_if = "is_empty"`, so the key "attributes" is
emitted only for a non-empty map. -/
def Retain.jsonFieldNames (r : Retain) : List String :=
  "retain" :: (if r.attributes.isEmpty then [] else ["attributes"])

/-- Embeds the serde field layout of `Insert` (operation.rs lines 223-230):
the field `s` is serialized under the key "insert", and `attributes`
carries `skip_serializing_if = "is_empty"`. -/
def Insert.jsonFieldNames (i : Insert) : List String :=
  "insert" :: (if i.attributes.isEmpty then [] else ["attributes"])

/-- A Delta is an ordered sequence of operations (the cached base and
target lengths play no role in the claims below). -/
abbrev Delta := List Operation

/-- The remainder of an operation after dropping its first `k` code
units, keeping variant and attributes. -/
def Operation.dropUnits : Operation → Nat → Operation
  | .Delete n, k => .Delete (n - k)
  | .Retain r, k => .Retain { r with n := r.n - k }
  | .Insert i, k => .Insert { i with s := i.s.drop k }

/-- Modelled from the spec: `DeltaIter::from_offset(delta, index)` (lib-ot,
not under src/) positions a cursor `index` code units into the delta; the
result here is the list of operations still ahead of the cursor, the first
one truncated if the cursor falls inside it. -/
def DeltaIter.seek : List Operation → Nat → List Operation
  | [], _ => []
  | op :: rest, offset =>
      if offset = 0 then op :: rest
      else if offset < op.len then op.dropUnits offset :: rest
      else DeltaIter.seek rest (offset - op.len)

/-- Modelled from the spec: `DeltaIter::next_op_with_newline` returns the
next op segment up to and including the next newline inside an Insert,
together with the code-unit offset at which that op starts. -/
def DeltaIter.next_op_with_newline : List Operation → Option (Operation × Nat)
  | [] => none
  | op :: rest =>
      match op with
      | .Insert i =>
          match i.s.findIdx? (fun c => c == 10) with
          | some p => some (.Insert { i with s := i.s.take (p + 1) }, 0)
          | none =>
              (DeltaIter.next_op_with_newline rest).map
                (fun x => (x.1, x.2 + op.len))
      | _ =>
          (DeltaIter.next_op_with_newline rest).map
            (fun x => (x.1, x.2 + op.len))

/-- Modelled from the spec: `attributes_except_header(op)` (lib-ot, not
under src/) is the attribute map of the op with any Header key removed. -/
def attributes_except_header (op : Operation) : Attributes :=
  op.get_attributes.filter (fun kv => !(kv.1 == AttributeKey.Header))

/-- Modelled from the spec: `Attributes::mark_all_as_removed_except(k)`
replaces every value whose key differs from `k` by the removal tombstone
(null) and keeps the value at `k` unchanged. -/
def mark_all_as_removed_except (a : Attributes) (except : Option AttributeKey) :
    Attributes :=
  a.map (fun kv =>
    match except with
    | some k => if kv.1 = k then kv else (kv.1, AttributeValue.null)
    | none => (kv.1, AttributeValue.null))

/-- Modelled from the spec: `util::is_newline(text)` holds when the typed
text is a single newline. -/
def is_newline (text : String) : Bool := text == "\n"

/-- The document text of a delta: the concatenation of the Insert texts in
order, as code units. -/
def Delta.text (d : Delta) : FlowyStr :=
  d.foldr (fun op acc => op.get_data ++ acc) []

/-- Modelled from the spec: `is_empty_line_at_index(delta, index)` (lib-ot,
not under src/) holds when there is no non-newline content between the
previous newline and `index`: the index is at the start of the document or
the code unit just before it is a newline. -/
def is_empty_line_at_index (delta : Delta) (index : Nat) : Bool :=
  index == 0 || (Delta.text delta).get? (index - 1) == some 10

/-- Modelled from the spec: the delta builder coalesces a retain with a
prior Retain having equal attributes (`Retain::merge_or_new`), otherwise
appends a fresh Retain. -/
def Delta.addRetain (d : Delta) (n : Nat) (attributes : Attributes) : Delta :=
  match d.getLast? with
  | some (.Retain r) =>
      if attrEquiv r.attributes attributes then
        d.dropLast ++ [.Retain { r with n := r.n + n }]
      else
        d ++ [.Retain ⟨n, attributes⟩]
  | _ => d ++ [.Retain ⟨n, attributes⟩]

/-- The newline-segment guard of AutoExitBlock (auto_exit_block.rs lines
32-40): decline when the op segment reaching the next newline has the
same non-header attributes as the examined op. -/
def declinesByNewline (next : Operation) (rest : List Operation) : Bool :=
  match DeltaIter.next_op_with_newline rest with
  | none => false
  | some (newline_op, _) =>
      attrEquiv (attributes_except_header next)
        (attributes_except_header newline_op)

/-- Embeds `AutoExitBlock::apply` from auto_exit_block.rs.  Guards in
source order: the typed text must be a single newline; the line at `index`
must be empty; there must be an op at or after `index`; its attributes
minus Header must be non-empty; its length must not exceed 1; the segment
up to the next newline must not carry the same non-header attributes.
When all guards pass it emits `retain(index + replace_len)` followed by
`retain(1)` carrying the attributes marked as removed except Header. -/
def AutoExitBlock.apply (delta : Delta) (replace_len : Nat) (text : String)
    (index : Nat) : Option Delta :=
  if is_newline text = false then none
  else if is_empty_line_at_index delta index = false then none
  else
    match DeltaIter.seek delta index with
    | [] => none
    | next :: rest =>
        if (attributes_except_header next).isEmpty then none
        else if 1 < next.len then none
        else if declinesByNewline next rest then none
        else
          some (Delta.addRetain
            (Delta.addRetain [] (index + replace_len) [])
            1
            (mark_all_as_removed_except next.get_attributes
              (some AttributeKey.Header)))

/-- Embeds `enum RevState` from rev_table.rs (Local = 0, Acked = 1). -/
inductive RevState where
  | Local
  | Acked
deriving DecidableEq, Repr

/-- Embeds `RevState::value` (`*self as i32`). -/
def RevState.value : RevState → Int
  | .Local => 0
  | .Acked => 1

/-- Embeds `impl From<i32> for RevState`: 0 maps to Local, 1 to Acked, and
every other code falls back to Local (with a logged error). -/
def RevState.fromValue (v : Int) : RevState :=
  if v = 0 then .Local
  else if v = 1 then .Acked
  else .Local

/-- Embeds `enum RevTableType` from rev_table.rs (Local = 0, Remote = 1). -/
inductive RevTableType where
  | Local
  | Remote
deriving DecidableEq, Repr

/-- Embeds `RevTableType::value` (`*self as i32`). -/
def RevTableType.value : RevTableType → Int
  | .Local => 0
  | .Remote => 1

/-- Embeds `impl From<i32> for RevTableType`: 0 maps to Local, 1 to
Remote, and every other code falls back to Local (with a logged error). -/
def RevTableType.fromValue (v : Int) : RevTableType :=
  if v = 0 then .Local
  else if v = 1 then .Remote
  else .Local

/-- Modelled from the spec: `enum RevType` (flowy-document-infra entities,
not under src/) has the two variants Local and Remote named by the
conversions in rev_table.rs. -/
inductive RevType where
  | Local
  | Remote
deriving DecidableEq, Repr

/-- Embeds `impl From<RevType> for RevTableType` from rev_table.rs. -/
def RevTableType.fromRevType : RevType → RevTableType
  | .Local => .Local
  | .Remote => .Remote

/-- Embeds `impl From<RevTableType> for RevType` from rev_table.rs. -/
def RevType.fromRevTableType : RevTableType → RevType
  | .Local => .Local
  | .Remote => .Remote

/-- Embeds `struct RevTable` from rev_table.rs; `data` is the raw byte
blob, modelled as a list of bytes. -/
structure RevTable where
  id : Int
  doc_id : String
  base_rev_id : Int
  rev_id : Int
  data : List Nat
  state : RevState
  ty : RevTableType

/-- Embeds `struct Revision` (flowy-document-infra entities; its field set
is fixed by the construction in rev_table.rs lines 49-61). -/
structure Revision where
  base_rev_id : Int
  rev_id : Int
  delta_data : List Nat
  md5 : String
  doc_id : String
  ty : RevType

/-- Embeds `impl From<RevTable> for Revision` from rev_table.rs.  The md5
helper of flowy-document-infra is not under src/; it is abstracted as the
parameter `md5fn`, so the theorem below states that the `md5` field is the
checksum function applied to the stored data, whatever that function is. -/
def Revision.fromRevTable (md5fn : List Nat → String) (table : RevTable) :
    Revision :=
  { base_rev_id := table.base_rev_id
    rev_id := table.rev_id
    delta_data := table.data
    md5 := md5fn table.data
    doc_id := table.doc_id
    ty := RevType.fromRevTableType table.ty }

/- ------------------------------------------------------------------ -/
/- Theorems                                                            -/
/- ------------------------------------------------------------------ -/

/-- An attribute map with an entry is never equivalent to the empty map. -/
theorem attrEquiv_nil_of_ne (a : Attributes) (h : a ≠ []) :
    attrEquiv [] a = false := by
  cases a with
  | nil => exact absurd rfl h
  | cons kv t =>
      obtain ⟨k, v⟩ := kv
      simp [attrEquiv, attrKeys, List.lookup]

/-- Adding a retain to the empty builder appends the fresh Retain. -/
theorem addRetain_nil (n : Nat) (a : Attributes) :
    Delta.addRetain [] n a = [.Retain ⟨n, a⟩] := rfl

/-- Adding a retain after a single Retain with non-equivalent attributes
appends a fresh Retain instead of merging. -/
theorem addRetain_singleton_ne (r : Retain) (n : Nat) (a : Attributes)
    (h : attrEquiv r.attributes a = false) :
    Delta.addRetain [.Retain r] n a = [.Retain r, .Retain ⟨n, a⟩] := by
  simp [Delta.addRetain, h]

/-- Claim C1: the claim demands that `split` return same-variant halves
carrying the attributes of the original; on a Retain the code instead
builds two Delete operations (operation.rs lines 67-70, a slip copied
from the Delete arm), so the claim fails: evaluated at
Retain(n = 2, attributes = {}) with index 1 the code yields
(Some(Delete 1), Some(Delete 1)). -/
theorem split_retain_failing_input :
    Operation.split (Operation.Retain ⟨2, []⟩) 1 =
      (some (Operation.Delete 1), some (Operation.Delete 1))
    ∧ Operation.sameVariant (Operation.Retain ⟨2, []⟩) (Operation.Delete 1)
      = false := by
  exact ⟨rfl, rfl⟩

/-- Claim C2 (counterexample): `shrink` on Delete(3) with interval [2, 5)
returns an operation of length 3, not of length 1, the size of the
overlap of [2, 5) with [0, 3); the code uses `min(n, interval.size())`
and ignores `interval.start` for Delete and Retain. -/
theorem shrink_overlap_counterexample :
    (Operation.shrink (Operation.Delete 3) ⟨2, 5⟩).map Operation.len ≠
      some (min 5 3 - min 2 3) := by
  decide

/-- Closed form of `shrink` on a Delete. -/
theorem shrink_delete_eq (n : Nat) (i : Interval) :
    Operation.shrink (Operation.Delete n) i =
      if min n i.size = 0 then none
      else some (Operation.Delete (min n i.size)) := by
  simp only [Operation.shrink, OpBuilder.delete, Operation.is_empty,
    Operation.len, beq_iff_eq]

/-- Closed form of `shrink` on a Retain. -/
theorem shrink_retain_eq (r : Retain) (i : Interval) :
    Operation.shrink (Operation.Retain r) i =
      if min r.n i.size = 0 then none
      else some (Operation.Retain ⟨min r.n i.size, r.attributes⟩) := by
  simp only [Operation.shrink, OpBuilder.retain, Operation.is_empty,
    Operation.len, beq_iff_eq]

/-- The length of a `sub_str` slice. -/
theorem sub_str_length (s : FlowyStr) (i : Interval) :
    (FlowyStr.sub_str s i).length = min i.stop s.length - i.start := by
  simp [FlowyStr.sub_str]

/-- Closed form of `shrink` on an Insert: the two source branches (start
past the end, and a genuine slice) collapse to a test on the slice. -/
theorem shrink_insert_eq (ins : Insert) (i : Interval) :
    Operation.shrink (Operation.Insert ins) i =
      if (FlowyStr.sub_str ins.s i).length = 0 then none
      else some (Operation.Insert ⟨FlowyStr.sub_str ins.s i, ins.attributes⟩) := by
  by_cases hs : ins.s.length < i.start
  · have h0 : (FlowyStr.sub_str ins.s i).length = 0 := by
      have h1 : min i.stop ins.s.length ≤ ins.s.length := Nat.min_le_right _ _
      have h2 := sub_str_length ins.s i
      omega
    simp [Operation.shrink, OpBuilder.insert, Operation.is_empty,
      Operation.len, Insert.count_of_code_units, hs, h0]
  · simp [Operation.shrink, OpBuilder.insert, Operation.is_empty,
      Operation.len, Insert.count_of_code_units, hs, beq_iff_eq]

/-- Claim C2 (amended): `shrink` returns the operation clipped to the
interval — same variant, same attributes — of length
`min(len(op), interval.size())` for Delete and Retain (the interval
start is ignored) and, for Insert, of the length of the code-unit slice
`[start, end)` clamped to the text (which does equal the overlap size);
None is returned if and only if that clipped result is empty. -/
theorem shrink_amended (op : Operation) (i : Interval) :
    (Operation.shrink op i = none ↔ clippedLen op i = 0)
    ∧ (∀ op2, Operation.shrink op i = some op2 →
        Operation.sameVariant op op2 = true
        ∧ op2.get_attributes = op.get_attributes
        ∧ op2.len = clippedLen op i)
    ∧ (∀ ins, op = .Insert ins →
        clippedLen op i = min i.stop ins.s.length - min i.start ins.s.length) := by
  cases op with
  | Delete n =>
      rw [shrink_delete_eq]
      refine ⟨?_, ?_, ?_⟩
      · split <;> simp_all [clippedLen]
      · intro op2 h
        split at h
        · exact absurd h (by simp)
        · cases h
          simp_all [Operation.sameVariant, Operation.get_attributes,
            Operation.len, clippedLen]
      · intro ins h
        exact absurd h (by simp)
  | Retain r =>
      rw [shrink_retain_eq]
      refine ⟨?_, ?_, ?_⟩
      · split <;> simp_all [clippedLen]
      · intro op2 h
        split at h
        · exact absurd h (by simp)
        · cases h
          simp_all [Operation.sameVariant, Operation.get_attributes,
            Operation.len, clippedLen]
      · intro ins h
        exact absurd h (by simp)
  | Insert ins =>
      rw [shrink_insert_eq]
      refine ⟨?_, ?_, ?_⟩
      · split <;> simp_all [clippedLen]
      · intro op2 h
        split at h
        · exact absurd h (by simp)
        · cases h
          simp_all [Operation.sameVariant, Operation.get_attributes,
            Operation.len, clippedLen, Insert.count_of_code_units]
      · intro ins2 h
        injection h with h2
        subst h2
        have h1 : min i.stop ins.s.length ≤ ins.s.length := Nat.min_le_right _ _
        have h2 : min i.start ins.s.length ≤ i.start := Nat.min_le_left _ _
        have h3 := sub_str_length ins.s i
        simp only [clippedLen]
        omega

/-- Claim C2 (witness): the amended claim evaluated at Retain(2, {})
with interval [0, 1), whose shrink is Retain(1, {}). -/
theorem shrink_amended_witness :
    Operation.sameVariant (Operation.Retain ⟨2, []⟩) (Operation.Retain ⟨1, []⟩)
      = true
    ∧ (Operation.Retain ⟨1, []⟩).get_attributes =
        (Operation.Retain ⟨2, []⟩).get_attributes
    ∧ (Operation.Retain ⟨1, []⟩).len =
        clippedLen (Operation.Retain ⟨2, []⟩) ⟨0, 1⟩ :=
  (shrink_amended (Operation.Retain ⟨2, []⟩) ⟨0, 1⟩).2.1
    (Operation.Retain ⟨1, []⟩) (by rfl)

/-- Claim C3: `AutoExitBlock::apply` returns None whenever any trigger
precondition fails: the typed text is not a single newline, or the line at
`index` is not empty, or the op at/after `index` has empty attributes once
the Header key is removed, or that op is longer than one code unit, or
the op segment up to the next newline carries the same non-header
attributes as that op. -/
theorem auto_exit_block_declines (delta : Delta) (replace_len : Nat)
    (text : String) (index : Nat) :
    (is_newline text = false →
      AutoExitBlock.apply delta replace_len text index = none)
    ∧ (is_empty_line_at_index delta index = false →
      AutoExitBlock.apply delta replace_len text index = none)
    ∧ (∀ next rest, DeltaIter.seek delta index = next :: rest →
        ((attributes_except_header next).isEmpty = true →
          AutoExitBlock.apply delta replace_len text index = none)
        ∧ (1 < next.len →
          AutoExitBlock.apply delta replace_len text index = none)
        ∧ (∀ nl off, DeltaIter.next_op_with_newline rest = some (nl, off) →
            attrEquiv (attributes_except_header next)
              (attributes_except_header nl) = true →
            AutoExitBlock.apply delta replace_len text index = none)) := by
  refine ⟨?_, ?_, ?_⟩
  · intro h
    simp [AutoExitBlock.apply, h]
  · intro h
    simp [AutoExitBlock.apply, h]
  · intro next rest hseek
    refine ⟨?_, ?_, ?_⟩
    · intro h
      simp [AutoExitBlock.apply, hseek, h]
    · intro h
      simp [AutoExitBlock.apply, hseek, h]
    · intro nl off h1 h2
      simp [AutoExitBlock.apply, hseek, declinesByNewline, h1, h2]

/-- Claim C3 (witness): typing the letter x instead of a newline makes
AutoExitBlock decline on the empty document. -/
theorem auto_exit_block_declines_witness :
    AutoExitBlock.apply [] 0 "x" 0 = none :=
  (auto_exit_block_declines [] 0 "x" 0).1 (by rfl)

/-- Claim C4: whenever `AutoExitBlock::apply` returns a delta, that delta
is exactly `retain(index + replace_len)` with no attributes followed by
`retain(1)` whose attribute map sends every attribute of the examined op
to the removal tombstone except the Header key, whose value is kept. -/
theorem auto_exit_block_emits (delta : Delta) (replace_len : Nat)
    (text : String) (index : Nat) (d : Delta)
    (h : AutoExitBlock.apply delta replace_len text index = some d) :
    ∃ next rest, DeltaIter.seek delta index = next :: rest
      ∧ d = [Operation.Retain ⟨index + replace_len, []⟩,
             Operation.Retain ⟨1, mark_all_as_removed_except
               next.get_attributes (some AttributeKey.Header)⟩]
      ∧ (∀ kv, kv ∈ next.get_attributes → kv.1 = AttributeKey.Header →
          kv ∈ mark_all_as_removed_except next.get_attributes
            (some AttributeKey.Header))
      ∧ (∀ kv, kv ∈ next.get_attributes → kv.1 ≠ AttributeKey.Header →
          (kv.1, AttributeValue.null) ∈ mark_all_as_removed_except
            next.get_attributes (some AttributeKey.Header)) := by
  unfold AutoExitBlock.apply at h
  split at h
  · exact Option.noConfusion h
  · split at h
    · exact Option.noConfusion h
    · split at h
      · exact Option.noConfusion h
      · rename_i next rest hseek
        split at h
        · exact Option.noConfusion h
        · rename_i hB
          split at h
          · exact Option.noConfusion h
          · split at h
            · exact Option.noConfusion h
            · injection h with hd
              subst hd
              have hattrs : next.get_attributes ≠ [] := by
                intro hnil
                exact hB (by simp [attributes_except_header, hnil])
              have hmarked : mark_all_as_removed_except next.get_attributes
                  (some AttributeKey.Header) ≠ [] := by
                simpa [mark_all_as_removed_except] using hattrs
              refine ⟨next, rest, hseek, ?_, ?_, ?_⟩
              · rw [addRetain_nil, addRetain_singleton_ne]
                exact attrEquiv_nil_of_ne _ hmarked
              · intro kv hkv hhdr
                exact List.mem_map.mpr ⟨kv, hkv, by simp [hhdr]⟩
              · intro kv hkv hhdr
                exact List.mem_map.mpr ⟨kv, hkv, by simp [hhdr]⟩

/-- Claim C4 (witness): the produced delta on a document whose second
insert is a bulleted newline, typing Enter at offset 2. -/
theorem auto_exit_block_emits_witness :
    ∃ next rest,
      DeltaIter.seek
        [Operation.Insert ⟨[97, 10], []⟩,
         Operation.Insert ⟨[10],
           [(AttributeKey.List, AttributeValue.str "bullet")]⟩] 2
        = next :: rest
      ∧ [Operation.Retain ⟨2, []⟩,
         Operation.Retain ⟨1, [(AttributeKey.List, AttributeValue.null)]⟩]
          = [Operation.Retain ⟨2 + 0, []⟩,
             Operation.Retain ⟨1, mark_all_as_removed_except
               next.get_attributes (some AttributeKey.Header)⟩]
      ∧ (∀ kv, kv ∈ next.get_attributes → kv.1 = AttributeKey.Header →
          kv ∈ mark_all_as_removed_except next.get_attributes
            (some AttributeKey.Header))
      ∧ (∀ kv, kv ∈ next.get_attributes → kv.1 ≠ AttributeKey.Header →
          (kv.1, AttributeValue.null) ∈ mark_all_as_removed_except
            next.get_attributes (some AttributeKey.Header)) :=
  auto_exit_block_emits
    [Operation.Insert ⟨[97, 10], []⟩,
     Operation.Insert ⟨[10],
       [(AttributeKey.List, AttributeValue.str "bullet")]⟩]
    0 "\n" 2
    [Operation.Retain ⟨2, []⟩,
     Operation.Retain ⟨1, [(AttributeKey.List, AttributeValue.null)]⟩]
    (by rfl)

/-- Claim C5: `set_attributes` on a Delete leaves the operation unchanged
(the misuse is only logged): the attribute map stays empty and the length
is unchanged; on Retain and Insert it replaces the attribute map. -/
theorem set_attributes_spec (op : Operation) (a : Attributes) :
    (op.is_delete = true →
      op.set_attributes a = op
      ∧ (op.set_attributes a).get_attributes = []
      ∧ (op.set_attributes a).len = op.len)
    ∧ (op.is_delete = false →
      (op.set_attributes a).get_attributes = a
      ∧ (op.set_attributes a).len = op.len) := by
  cases op <;>
    simp [Operation.is_delete, Operation.set_attributes,
      Operation.get_attributes, Operation.len, Insert.count_of_code_units]

/-- Claim C5 (witness): setting bold on Delete(2) changes nothing, and
setting it on Retain(1) installs it. -/
theorem set_attributes_spec_witness :
    ((Operation.Delete 2).set_attributes
        [(AttributeKey.Bold, AttributeValue.bool true)] = Operation.Delete 2
      ∧ ((Operation.Delete 2).set_attributes
          [(AttributeKey.Bold, AttributeValue.bool true)]).get_attributes = []
      ∧ ((Operation.Delete 2).set_attributes
          [(AttributeKey.Bold, AttributeValue.bool true)]).len =
          (Operation.Delete 2).len)
    ∧ (((Operation.Retain ⟨1, []⟩).set_attributes
          [(AttributeKey.Bold, AttributeValue.bool true)]).get_attributes =
          [(AttributeKey.Bold, AttributeValue.bool true)]
      ∧ ((Operation.Retain ⟨1, []⟩).set_attributes
          [(AttributeKey.Bold, AttributeValue.bool true)]).len =
          (Operation.Retain ⟨1, []⟩).len) :=
  ⟨(set_attributes_spec (Operation.Delete 2)
      [(AttributeKey.Bold, AttributeValue.bool true)]).1 rfl,
   (set_attributes_spec (Operation.Retain ⟨1, []⟩)
      [(AttributeKey.Bold, AttributeValue.bool true)]).2 rfl⟩

/-- Claim C6: `Retain::merge_or_new` merges in place (adds n, returns
None) exactly when the attribute maps are equal, and otherwise returns a
fresh Retain leaving the receiver unchanged; `Insert::merge_or_new_op`
appends the text (returns None) exactly when the attribute maps are
equal, and otherwise returns a fresh Insert leaving the receiver
unchanged. -/
theorem merge_or_new_spec (r : Retain) (i : Insert) (n : Nat) (s : FlowyStr)
    (a : Attributes) :
    (attrEquiv r.attributes a = true →
      Retain.merge_or_new r n a = (⟨r.n + n, r.attributes⟩, none))
    ∧ (attrEquiv r.attributes a = false →
      Retain.merge_or_new r n a = (r, some (Operation.Retain ⟨n, a⟩)))
    ∧ (attrEquiv i.attributes a = true →
      Insert.merge_or_new_op i s a = (⟨i.s ++ s, i.attributes⟩, none))
    ∧ (attrEquiv i.attributes a = false →
      Insert.merge_or_new_op i s a = (i, some (Operation.Insert ⟨s, a⟩))) := by
  refine ⟨?_, ?_, ?_, ?_⟩ <;> intro h <;>
    simp [Retain.merge_or_new, Insert.merge_or_new_op,
      OpBuilder.retain, OpBuilder.insert, h]

/-- Claim C6 (witness): merging Retain(1, {}) with retain(2, {}) adds the
lengths, and merging Insert("", {}) with insert("a", {}) appends the
text. -/
theorem merge_or_new_spec_witness :
    Retain.merge_or_new ⟨1, []⟩ 2 [] = (⟨1 + 2, []⟩, none)
    ∧ Insert.merge_or_new_op ⟨[], []⟩ [97] [] = (⟨[] ++ [97], []⟩, none) :=
  ⟨(merge_or_new_spec ⟨1, []⟩ ⟨[], []⟩ 2 [97] []).1 rfl,
   (merge_or_new_spec ⟨1, []⟩ ⟨[], []⟩ 2 [97] []).2.2.1 rfl⟩

/-- Claim C7: the serialized form of a Retain or Insert carries the
"attributes" key exactly when the attribute map is non-empty. -/
theorem json_omits_empty_attributes (r : Retain) (i : Insert) :
    ("attributes" ∈ Retain.jsonFieldNames r ↔ r.attributes ≠ [])
    ∧ ("attributes" ∈ Insert.jsonFieldNames i ↔ i.attributes ≠ []) := by
  constructor
  · cases h : r.attributes <;> simp [Retain.jsonFieldNames, h]
  · cases h : i.attributes <;> simp [Insert.jsonFieldNames, h]

/-- Claim C8: decoding a persisted state integer yields Acked exactly for
the value 1 and Local for every other value; decoding a persisted type
integer yields Remote exactly for the value 1 and Local for every other
value. -/
theorem rev_enum_tolerant_decode (v : Int) :
    RevState.fromValue v = (if v = 1 then RevState.Acked else RevState.Local)
    ∧ RevTableType.fromValue v =
        (if v = 1 then RevTableType.Remote else RevTableType.Local) := by
  refine ⟨?_, ?_⟩ <;>
    simp only [RevState.fromValue, RevTableType.fromValue] <;>
    split_ifs <;> first | rfl | omega

/-- Claim C9: the Revision built from a RevTable row copies doc_id,
base_rev_id, rev_id and the delta bytes unchanged, and its md5 field is
the checksum function recomputed over the stored bytes. -/
theorem revision_from_rev_table (md5fn : List Nat → String) (t : RevTable) :
    (Revision.fromRevTable md5fn t).doc_id = t.doc_id
    ∧ (Revision.fromRevTable md5fn t).base_rev_id = t.base_rev_id
    ∧ (Revision.fromRevTable md5fn t).rev_id = t.rev_id
    ∧ (Revision.fromRevTable md5fn t).delta_data = t.data
    ∧ (Revision.fromRevTable md5fn t).md5 = md5fn t.data :=
  ⟨rfl, rfl, rfl, rfl, rfl⟩

/-- Claim C10: the enum integer codecs and the RevType/RevTableType
conversions round-trip on every value. -/
theorem enum_codecs_roundtrip :
    (∀ s : RevState, RevState.fromValue s.value = s)
    ∧ (∀ t : RevTableType, RevTableType.fromValue t.value = t)
    ∧ (∀ ty : RevType,
        RevType.fromRevTableType (RevTableType.fromRevType ty) = ty)
    ∧ (∀ t : RevTableType,
        RevTableType.fromRevType (RevType.fromRevTableType t) = t) := by
  refine ⟨?_, ?_, ?_, ?_⟩ <;> intro x <;> cases x <;> rfl

end AppFlowy
